import Mathlib

/-!
Verification of the hashnode-client adapter.

Shallow embedding of the TypeScript sources:
  * `src/config.js`            — configuration constants
  * `src/unnamed/part_002`     — `GraphQLClient` (transport) and `HashnodeQueries`
  * `src/service.ts`           — `HashnodeService` (business logic)
  * `src/unnamed/part_000`     — compiled `service.js` and `webhooks.js`
    (webhook signature verification and payload parsing)
  * `src/service.d.ts`         — carries the compiled package index
    (`index.js`), the source of the Facade wrappers

JavaScript strings are modelled as `String`/`List Char` (UTF-16 code units
restricted to Unicode scalar values; lone surrogates are not representable),
JS numbers as `Int` (the code under verification only ever handles integral
counts; floating point values are outside the model), thrown exceptions as
`Except`, and the network as an explicit oracle passed to each operation
(`Nat → TransportOutcome _`, giving the outcome of the n-th HTTP call the
operation performs).  `async`/`await` sequencing is deterministic and is
embedded as ordinary sequential evaluation.
-/

namespace Hashnode

/-! ### Configuration — src/config.js

`PUBLICATION_HOST` reads `process.env.HASHNODE_PUBLICATION_HOST || default`;
the environment lookup is a parameter (`none` models an unset variable, and
the `||` fallback also replaces an empty-string value). -/

namespace HASHNODE_CONFIG

def API_URL : String := "https://gql.hashnode.com"

def PUBLICATION_HOST (envHost : Option String) : String :=
  match envHost with
  | some h => if h = "" then "yourblog.hashnode.dev" else h
  | none => "yourblog.hashnode.dev"

def TIMEOUT_MS : Int := 15000

def MAX_POSTS_PER_REQUEST : Int := 20

def DEFAULT_POSTS_COUNT : Int := 10

end HASHNODE_CONFIG

/-! ### Query catalog — `HashnodeQueries` (compiled `queries.js`, src/unnamed/part_002)

The query builders are pure string templates.  Literal curly braces are
written with the `\x7b` / `\x7d` escapes. -/

namespace HashnodeQueries

def POST_BASE_FIELDS : String :=
  "\n  id\n  title\n  excerpt: brief\n  slug\n  coverImage \x7b url \x7d\n  publishedAt\n  readTimeInMinutes\n  author \x7b name username profilePicture \x7d\n"

def POST_EXTENDED_FIELDS : String :=
  "\n  " ++ POST_BASE_FIELDS ++ "\n  tags \x7b name slug \x7d\n"

def POST_FULL_FIELDS : String :=
  "\n  " ++ POST_BASE_FIELDS ++ "\n  content \x7b html markdown text \x7d\n"

def POST_FULL_EXTENDED_FIELDS : String :=
  "\n  " ++ POST_EXTENDED_FIELDS ++ "\n  content \x7b html markdown text \x7d\n"

/-- `HashnodeQueries.getBlogPosts(extended)`: list-posts query, field set
selected by the `extended` flag. -/
def getBlogPosts (extended : Bool) : String :=
  let fields := if extended then POST_EXTENDED_FIELDS else POST_BASE_FIELDS
  "\n      query GetBlogPosts($host: String!, $first: Int!) \x7b\n        publication(host: $host) \x7b\n          posts(first: $first) \x7b\n            edges \x7b\n              node \x7b\n                "
    ++ fields ++
  "\n              \x7d\n            \x7d\n            pageInfo \x7b hasNextPage endCursor \x7d\n          \x7d\n        \x7d\n      \x7d\n    "

/-- `HashnodeQueries.getBlogPostBySlug(extended)`: single-post query, field
set selected by the `extended` flag. -/
def getBlogPostBySlug (extended : Bool) : String :=
  let fields := if extended then POST_FULL_EXTENDED_FIELDS else POST_FULL_FIELDS
  "\n      query GetBlogPost($host: String!, $slug: String!) \x7b\n        publication(host: $host) \x7b\n          post(slug: $slug) \x7b\n            "
    ++ fields ++
  "\n          \x7d\n        \x7d\n      \x7d\n    "

end HashnodeQueries

/-! ### Domain records — src/types.ts -/

structure Author where
  name : String
  username : String
  profilePicture : Option String := none
deriving Repr, DecidableEq

structure Tag where
  name : String
  slug : Option String := none
deriving Repr, DecidableEq

structure CoverImage where
  url : Option String := none
deriving Repr, DecidableEq

structure PostContent where
  html : Option String := none
  markdown : Option String := none
  text : Option String := none
deriving Repr, DecidableEq

structure BlogPost where
  id : String
  title : String
  excerpt : String
  slug : String
  coverImage : Option CoverImage := none
  publishedAt : String
  readTimeInMinutes : Int
  author : Author
  tags : Option (List Tag) := none
deriving Repr, DecidableEq

structure BlogPostDetail extends BlogPost where
  content : Option PostContent := none
deriving Repr, DecidableEq

structure PageInfo where
  hasNextPage : Bool
  endCursor : Option String := none
deriving Repr, DecidableEq

/-- One entry of the GraphQL envelope's error list (`GraphQLError` in
src/types.ts; renamed here to avoid the clash with the transport's error
class of the same name). -/
structure GraphQLErrorEntry where
  message : String
  code : Option String := none
deriving Repr, DecidableEq

/-- The GraphQL envelope `{data?, errors?}` (src/types.ts `GraphQLResponse<T>`). -/
structure GraphQLResponse (T : Type) where
  data? : Option T := none
  errors? : Option (List GraphQLErrorEntry) := none
deriving Repr

structure PostsEdge where
  node : BlogPost
deriving Repr, DecidableEq

structure PostsConnection where
  edges : List PostsEdge
  pageInfo : PageInfo
deriving Repr, DecidableEq

structure PublicationPosts where
  posts : PostsConnection
deriving Repr, DecidableEq

/-- src/types.ts `PublicationPostsResponse`. -/
structure PublicationPostsResponse where
  publication : PublicationPosts
deriving Repr, DecidableEq

structure PublicationPost where
  post : Option BlogPostDetail
deriving Repr, DecidableEq

/-- src/types.ts `PublicationPostResponse`. -/
structure PublicationPostResponse where
  publication : PublicationPost
deriving Repr, DecidableEq

/-! ### Thrown values

The service throws plain `Error` objects; the transport throws its
`GraphQLError` class (graphql-client, src/unnamed/part_002); a JSON parse
failure of a response body surfaces as a `SyntaxError`. -/

inductive JsError where
  /-- `new Error(message)` -/
  | error (message : String)
  /-- the transport's `GraphQLError(message, status?, statusText?, data?)` -/
  | graphQLError (message : String) (status : Option Int)
      (statusText : Option String) (body : Option String)
  /-- `SyntaxError` escaping `response.json()` -/
  | syntaxError (message : String)
deriving Repr, DecidableEq

/-! ### Service — src/service.ts -/

/-- `HashnodeService.validateResponse` (src/service.ts lines 81-92): throw on a
non-empty error list, throw on missing data, otherwise unwrap the data. -/
def validateResponse {T : Type} (response : GraphQLResponse T) : Except JsError T :=
  let checkData : Except JsError T :=
    match response.data? with
    | some d => .ok d
    | none => .error (.error "No data returned from GraphQL query")
  match response.errors? with
  | some errs =>
      if errs.length > 0 then
        .error (.error ("GraphQL error: " ++
          String.intercalate ", " (errs.map (fun e => e.message))))
      else checkData
  | none => checkData

/-- Outcome of one transport call (`GraphQLClient.query` as observed by the
service): either the awaited promise rejects with a thrown value, or it
resolves to a parsed GraphQL envelope. -/
inductive TransportOutcome (T : Type) where
  | throw (e : JsError)
  | resolve (response : GraphQLResponse T)

/-- One `executeQuery` + `validateResponse` attempt:
`await this.executeQuery(...)` followed by `this.validateResponse(response)`.
Every failure mode of an attempt — transport rejection, GraphQL-error
envelope, missing data — lands in the `.error` case. -/
def settleAttempt {T : Type} (o : TransportOutcome T) : Except JsError T :=
  match o with
  | .throw e => .error e
  | .resolve r => validateResponse r

/-- Constructor state of `HashnodeService`: all three fields are read-only
after construction. -/
structure HashnodeService where
  apiUrl : String
  publicationHost : String
  timeout : Int
deriving Repr, DecidableEq

/-- A request issued for the list-posts operation: endpoint, query document and
the `{host, first}` variables. -/
structure PostsRequest where
  url : String
  query : String
  host : String
  first : Int
deriving Repr, DecidableEq

/-- A request issued for the single-post operation: endpoint, query document
and the `{host, slug}` variables. -/
structure SlugRequest where
  url : String
  query : String
  host : String
  slug : String
deriving Repr, DecidableEq

/-- The JavaScript `WhiteSpace`/`LineTerminator` code points removed by
`String.prototype.trim`. -/
def jsWhitespaceCodes : List Nat :=
  [9, 10, 11, 12, 13, 32, 160, 5760,
   8192, 8193, 8194, 8195, 8196, 8197, 8198, 8199, 8200, 8201, 8202,
   8232, 8233, 8239, 8287, 12288, 65279]

def isJsWhitespace (c : Char) : Bool := jsWhitespaceCodes.contains c.toNat

/-- `String.prototype.trim`: strip leading and trailing whitespace. -/
def jsTrim (s : String) : String :=
  String.mk (((s.toList.dropWhile isJsWhitespace).reverse.dropWhile isJsWhitespace).reverse)

/-- The guard of `getBlogPostBySlug` (src/service.ts line 153):
`!slug || typeof slug !== 'string' || slug.trim().length === 0`.
`none` models a non-string argument (any such value fails the `typeof`
check regardless of truthiness). -/
def isInvalidSlug (slug : Option String) : Bool :=
  match slug with
  | none => true
  | some s => s == "" || (jsTrim s).length == 0

/-- `HashnodeService.getBlogPosts` (src/service.ts lines 114-147): clamp the
requested count, try the extended query, fall back once to the basic query,
return `[]` if both attempts fail.  Besides the result, the embedding returns
the list of transport requests the call issued, in order.

The source contains a trailing `throw error;` after the inner `try`/`catch`;
both branches of that inner statement return, so the `throw` is unreachable
and has no image here. -/
def HashnodeService.getBlogPosts (svc : HashnodeService)
    (transport : Nat → TransportOutcome PublicationPostsResponse)
    (count : Option Int) :
    Except JsError (List BlogPost) × List PostsRequest :=
  let limit := min (count.getD HASHNODE_CONFIG.DEFAULT_POSTS_COUNT)
                   HASHNODE_CONFIG.MAX_POSTS_PER_REQUEST
  let mkReq (extended : Bool) : PostsRequest :=
    { url := svc.apiUrl, query := HashnodeQueries.getBlogPosts extended,
      host := svc.publicationHost, first := limit }
  match settleAttempt (transport 0) with
  | .ok d => (.ok (d.publication.posts.edges.map (fun e => e.node)), [mkReq true])
  | .error _error =>
    match settleAttempt (transport 1) with
    | .ok d =>
        (.ok (d.publication.posts.edges.map (fun e => e.node)),
         [mkReq true, mkReq false])
    | .error _ => (.ok [], [mkReq true, mkReq false])

/-- `HashnodeService.getBlogPostBySlug` (src/service.ts lines 152-184):
validate the slug, try the full-extended query, fall back once to the
full-basic query, and re-throw the first attempt's error if both fail.
Besides the result, the embedding returns the list of transport requests the
call issued, in order. -/
def HashnodeService.getBlogPostBySlug (svc : HashnodeService)
    (transport : Nat → TransportOutcome PublicationPostResponse)
    (slug : Option String) :
    Except JsError (Option BlogPostDetail) × List SlugRequest :=
  if isInvalidSlug slug then
    (.error (.error "Invalid slug parameter"), [])
  else
    let cleanSlug := jsTrim (slug.getD "")
    let mkReq (extended : Bool) : SlugRequest :=
      { url := svc.apiUrl, query := HashnodeQueries.getBlogPostBySlug extended,
        host := svc.publicationHost, slug := cleanSlug }
    match settleAttempt (transport 0) with
    | .ok d => (.ok d.publication.post, [mkReq true])
    | .error e =>
      match settleAttempt (transport 1) with
      | .ok d => (.ok d.publication.post, [mkReq true, mkReq false])
      | .error _ => (.error e, [mkReq true, mkReq false])

/-! ### JSON values — model of the JavaScript data JSON.parse/JSON.stringify
operate on

JS strings are sequences of Unicode scalar values here (`List Char`); JS
numbers are restricted to integers (none of the code under verification
produces or consumes fractional values, and floating point is outside the
model).  Objects are key/value lists in property insertion order; a JS object
cannot hold a duplicate key, captured by the well-formedness predicate
`Json.wf` below. -/

inductive Json where
  | null
  | bool (b : Bool)
  | num (n : Int)
  | str (s : List Char)
  | arr (elements : List Json)
  | obj (fields : List (List Char × Json))

/-- The `{` character, kept out of literals. -/
def lcurly : Char := Char.ofNat 123

/-- The `}` character, kept out of literals. -/
def rcurly : Char := Char.ofNat 125

def digitChar (n : Nat) : Char := Char.ofNat (48 + n)

def hexDigitChar (n : Nat) : Char :=
  if n < 10 then Char.ofNat (48 + n) else Char.ofNat (87 + n)

def natToCharsAux : Nat → Nat → List Char
  | 0, _ => []
  | fuel + 1, n =>
    if n < 10 then [digitChar n]
    else natToCharsAux fuel (n / 10) ++ [digitChar (n % 10)]

/-- Decimal digits of a natural number (the JS `String(n)` for `n ≥ 0`). -/
def natToChars (n : Nat) : List Char := natToCharsAux (n + 1) n

/-- The JS `String(n)` for an integral number. -/
def intToChars (n : Int) : List Char :=
  if n < 0 then '-' :: natToChars n.natAbs else natToChars n.natAbs

/-- `JSON.stringify`'s QuoteJSONString escape for one character: `\"`, `\\`,
the short escapes `\b \t \n \f \r`, `\u00xx` for the remaining control
characters, and every other character verbatim. -/
def escapeChar (c : Char) : List Char :=
  if c = '"' then ['\\', '"']
  else if c = '\\' then ['\\', '\\']
  else if c = '\x08' then ['\\', 'b']
  else if c = '\t' then ['\\', 't']
  else if c = '\n' then ['\\', 'n']
  else if c = '\x0c' then ['\\', 'f']
  else if c = '\x0d' then ['\\', 'r']
  else if c.toNat < 32 then
    "\\u00".toList ++ [hexDigitChar (c.toNat / 16), hexDigitChar (c.toNat % 16)]
  else
    [c]

/-- A JSON string literal: quote and escape. -/
def quoteString (s : List Char) : List Char :=
  '"' :: (s.flatMap escapeChar ++ ['"'])

mutual

/-- `JSON.stringify` (no indent argument, as used throughout the sources). -/
def stringifyJson : Json → List Char
  | .null => "null".toList
  | .bool true => "true".toList
  | .bool false => "false".toList
  | .num n => intToChars n
  | .str s => quoteString s
  | .arr [] => ['[', ']']
  | .arr (x :: xs) => '[' :: (stringifyElems x xs ++ [']'])
  | .obj [] => [lcurly, rcurly]
  | .obj (f :: fs) => lcurly :: (stringifyFields f fs ++ [rcurly])
termination_by j => sizeOf j
decreasing_by all_goals (simp_wf <;> omega)

def stringifyElems : Json → List Json → List Char
  | x, [] => stringifyJson x
  | x, y :: ys => stringifyJson x ++ ',' :: stringifyElems y ys
termination_by x xs => 1 + sizeOf x + sizeOf xs
decreasing_by all_goals (simp_wf <;> omega)

def stringifyFields : (List Char × Json) → List (List Char × Json) → List Char
  | (k, v), [] => quoteString k ++ ':' :: stringifyJson v
  | (k, v), g :: gs => (quoteString k ++ ':' :: stringifyJson v) ++ ',' :: stringifyFields g gs
termination_by f fs => 1 + sizeOf f + sizeOf fs
decreasing_by all_goals (simp_wf <;> omega)

end

/-- JSON whitespace accepted between tokens by `JSON.parse`. -/
def isJsonWs (c : Char) : Bool := c = ' ' || c = '\t' || c = '\n' || c = '\x0d'

def skipWs (l : List Char) : List Char := l.dropWhile isJsonWs

def hexDigitVal (c : Char) : Option Nat :=
  if '0' ≤ c ∧ c ≤ '9' then some (c.toNat - 48)
  else if 'a' ≤ c ∧ c ≤ 'f' then some (c.toNat - 87)
  else if 'A' ≤ c ∧ c ≤ 'F' then some (c.toNat - 55)
  else none

/-- Body of a JSON string literal, after the opening quote: returns the
decoded characters and the input remaining after the closing quote.
`\uXXXX` escapes denoting surrogate code units are outside the model
(a JS string containing them has no `List Char` counterpart). -/
def parseStringBody : List Char → Option (List Char × List Char)
  | [] => none
  | c :: rest =>
    if c = '"' then some ([], rest)
    else if c = '\\' then
      match rest with
      | [] => none
      | e :: rest2 =>
        if e = '"' then (parseStringBody rest2).map (fun p => ('"' :: p.1, p.2))
        else if e = '\\' then (parseStringBody rest2).map (fun p => ('\\' :: p.1, p.2))
        else if e = '/' then (parseStringBody rest2).map (fun p => ('/' :: p.1, p.2))
        else if e = 'b' then (parseStringBody rest2).map (fun p => ('\x08' :: p.1, p.2))
        else if e = 'f' then (parseStringBody rest2).map (fun p => ('\x0c' :: p.1, p.2))
        else if e = 'n' then (parseStringBody rest2).map (fun p => ('\n' :: p.1, p.2))
        else if e = 'r' then (parseStringBody rest2).map (fun p => ('\x0d' :: p.1, p.2))
        else if e = 't' then (parseStringBody rest2).map (fun p => ('\t' :: p.1, p.2))
        else if e = 'u' then
          match rest2 with
          | h1 :: h2 :: h3 :: h4 :: rest3 =>
            match hexDigitVal h1, hexDigitVal h2, hexDigitVal h3, hexDigitVal h4 with
            | some a, some b, some c', some d =>
              let n := ((a * 16 + b) * 16 + c') * 16 + d
              if n < 55296 ∨ (57343 < n ∧ n < 1114112) then
                (parseStringBody rest3).map (fun p => (Char.ofNat n :: p.1, p.2))
              else none
            | _, _, _, _ => none
          | _ => none
        else none
    else if c.toNat < 32 then none
    else (parseStringBody rest).map (fun p => (c :: p.1, p.2))

/-- Value of a (non-empty) run of decimal digit characters. -/
def readNat (ds : List Char) : Nat :=
  ds.foldl (fun acc c => acc * 10 + (c.toNat - 48)) 0

/-- JSON number parsing restricted to the integer grammar (optional minus and
a digit run); fraction and exponent parts are outside the model, and leading
zeros are accepted leniently (never produced by `stringifyJson`). -/
def parseNumber (input : List Char) : Option (Json × List Char) :=
  match input with
  | [] => none
  | c :: rest =>
    if c = '-' then
      let p := rest.span Char.isDigit
      if p.1.isEmpty then none
      else some (.num (-(readNat p.1 : Int)), p.2)
    else
      let p := input.span Char.isDigit
      if p.1.isEmpty then none
      else some (.num ((readNat p.1 : Int)), p.2)

/-- Assign a key on a JS object being built up by `JSON.parse`: a repeated key
overwrites the existing property in place (keeping the first occurrence's
position), a fresh key is appended in insertion order. -/
def setField : List (List Char × Json) → List Char → Json → List (List Char × Json)
  | [], k, v => [(k, v)]
  | (k', v') :: rest, k, v =>
    if k' = k then (k, v) :: rest else (k', v') :: setField rest k v

mutual

/-- `JSON.parse`'s value grammar, fuelled (the fuel strictly decreases on
every nested parse; `parseJsonText` supplies enough for any input). -/
def parseValue : Nat → List Char → Option (Json × List Char)
  | 0, _ => none
  | fuel + 1, input =>
    match skipWs input with
    | [] => none
    | c :: rest =>
      if c = 'n' then
        match rest with
        | 'u' :: 'l' :: 'l' :: r => some (.null, r)
        | _ => none
      else if c = 't' then
        match rest with
        | 'r' :: 'u' :: 'e' :: r => some (.bool true, r)
        | _ => none
      else if c = 'f' then
        match rest with
        | 'a' :: 'l' :: 's' :: 'e' :: r => some (.bool false, r)
        | _ => none
      else if c = '"' then
        (parseStringBody rest).map (fun p => (.str p.1, p.2))
      else if c = '[' then
        match skipWs rest with
        | c2 :: r2 => if c2 = ']' then some (.arr [], r2) else parseElems fuel rest []
        | [] => none
      else if c = lcurly then
        match skipWs rest with
        | c2 :: r2 => if c2 = rcurly then some (.obj [], r2) else parseFields fuel rest []
        | [] => none
      else parseNumber (c :: rest)

/-- Comma-separated array elements up to the closing bracket. -/
def parseElems : Nat → List Char → List Json → Option (Json × List Char)
  | 0, _, _ => none
  | fuel + 1, input, acc =>
    match parseValue fuel input with
    | none => none
    | some (v, rest) =>
      match skipWs rest with
      | c :: r2 =>
        if c = ',' then parseElems fuel r2 (acc ++ [v])
        else if c = ']' then some (.arr (acc ++ [v]), r2)
        else none
      | [] => none

/-- Comma-separated object members up to the closing brace. -/
def parseFields : Nat → List Char → List (List Char × Json) → Option (Json × List Char)
  | 0, _, _ => none
  | fuel + 1, input, acc =>
    match skipWs input with
    | [] => none
    | c :: rest =>
      if c = '"' then
        match parseStringBody rest with
        | none => none
        | some (key, rest2) =>
          match skipWs rest2 with
          | [] => none
          | c2 :: rest3 =>
            if c2 = ':' then
              match parseValue fuel rest3 with
              | none => none
              | some (v, rest4) =>
                match skipWs rest4 with
                | [] => none
                | c3 :: rest5 =>
                  if c3 = ',' then parseFields fuel rest5 (setField acc key v)
                  else if c3 = rcurly then some (.obj (setField acc key v), rest5)
                  else none
            else none
      else none

end

/-- `JSON.parse`: parse one value, allow only trailing whitespace. -/
def parseJsonText (s : List Char) : Option Json :=
  match parseValue (s.length + 1) s with
  | some (j, rest) => if skipWs rest = [] then some j else none
  | none => none

def keysDistinct : List (List Char) → Bool
  | [] => true
  | k :: ks => !(ks.contains k) && keysDistinct ks

mutual

/-- Well-formedness of a modelled JS value: object keys are pairwise
distinct, recursively (every value produced by an actual JS object graph
satisfies this). -/
def Json.wf : Json → Bool
  | .null => true
  | .bool _ => true
  | .num _ => true
  | .str _ => true
  | .arr l => wfElems l
  | .obj fs => keysDistinct (fs.map Prod.fst) && wfFields fs
termination_by j => sizeOf j
decreasing_by all_goals (simp_wf <;> omega)

def wfElems : List Json → Bool
  | [] => true
  | x :: xs => x.wf && wfElems xs
termination_by l => sizeOf l
decreasing_by all_goals (simp_wf <;> omega)

def wfFields : List (List Char × Json) → Bool
  | [] => true
  | (k, v) :: fs => v.wf && wfFields fs
termination_by fs => sizeOf fs
decreasing_by all_goals (simp_wf <;> omega)

end

/-! ### Webhook helpers — compiled `webhooks.js` (src/unnamed/part_000) -/

/-- JS property access `obj[k]`: `none` models `undefined`. -/
def Json.getField (j : Json) (k : List Char) : Option Json :=
  match j with
  | .obj fs => (fs.find? (fun kv => kv.1 == k)).map (fun kv => kv.2)
  | _ => none

/-- JS truthiness of a modelled value (`NaN` and `undefined` have no
counterpart here; `undefined` is handled at the `Option` layer). -/
def Json.isTruthy : Json → Bool
  | .null => false
  | .bool b => b
  | .num n => n != 0
  | .str s => !s.isEmpty
  | .arr _ => true
  | .obj _ => true

/-- Truthiness of `data.k`, with an absent property (`undefined`) falsy. -/
def truthyField (d : Json) (k : String) : Bool :=
  match d.getField k.toList with
  | some v => v.isTruthy
  | none => false

mutual

/-- JS string coercion `${v}` of a modelled value, as used by the template
literal in the invalid-event error message. -/
def Json.jsToString : Json → List Char
  | .null => "null".toList
  | .bool true => "true".toList
  | .bool false => "false".toList
  | .num n => intToChars n
  | .str s => s
  | .arr l => arrayJoin l
  | .obj _ => "[object Object]".toList
termination_by j => 2 * sizeOf j
decreasing_by all_goals (simp_wf <;> omega)

/-- `Array.prototype.toString`: elements joined with commas, `null` rendering
as the empty string. -/
def arrayJoin : List Json → List Char
  | [] => []
  | [x] => arrayElemToString x
  | x :: y :: ys => arrayElemToString x ++ ',' :: arrayJoin (y :: ys)
termination_by l => 2 * sizeOf l + 1
decreasing_by all_goals (simp_wf <;> omega)

def arrayElemToString : Json → List Char
  | .null => []
  | v => v.jsToString
termination_by v => 2 * sizeOf v + 1
decreasing_by all_goals (simp_wf <;> omega)

end

/-- The `validEvents` array of `parseWebhookPayload`. -/
def validEvents : List (List Char) :=
  ["POST_PUBLISHED", "POST_UPDATED", "POST_DELETED",
   "STATIC_PAGE_PUBLISHED", "STATIC_PAGE_UPDATED", "STATIC_PAGE_DELETED"].map
    String.toList

/-- The argument of `parseWebhookPayload`: a raw JSON string or an
already-parsed object (`payload: string | WebhookPayload`). -/
inductive WebhookInput where
  | jsString (s : List Char)
  | jsObject (j : Json)

/-- `validEvents.includes(data.event)`: true exactly when the event value is
a string equal to one of the six literals (a non-string value is never equal
to any of them under `===`). -/
def isValidEventVal (v : Option Json) : Bool :=
  match v with
  | some (.str e) => validEvents.contains e
  | _ => false

/-- The validation half of `parseWebhookPayload` (webhooks.js lines 408-424),
applied after the string/object dispatch: required-fields truthiness check,
then membership of `data.event` in `validEvents`, then return `data`
unchanged. -/
def validateWebhookData (d : Json) : Except String Json :=
  if !(truthyField d "event") || !(truthyField d "publication")
      || !(truthyField d "timestamp") then
    .error "Missing required webhook fields"
  else if isValidEventVal (d.getField "event".toList) then
    .ok d
  else
    .error ("Invalid webhook event: "
      ++ String.mk (((d.getField "event".toList).getD .null).jsToString))

/-- `parseWebhookPayload` (webhooks.js lines 395-425): JSON-parse a string
input (an object input is used as-is), then validate. -/
def parseWebhookPayload (payload : WebhookInput) : Except String Json :=
  match payload with
  | .jsString s =>
    match parseJsonText s with
    | none => .error "Invalid JSON payload"
    | some d => validateWebhookData d
  | .jsObject d => validateWebhookData d

/-- JS `delete d[k]` on an object (identity on non-objects); used to state
that a falsy required field acts exactly as an absent one. -/
def removeField (j : Json) (k : List Char) : Json :=
  match j with
  | .obj fs => .obj (fs.filter (fun kv => !(kv.1 == k)))
  | _ => j

/-! ### HMAC-SHA256 — model of Node's `crypto.createHmac('sha256', secret)`

The webhook helpers take JS strings; `Buffer.from(...)` and `hmac.update(...)`
operate on their UTF-8 bytes, so payload, signature and secret are modelled
directly as byte lists (`List Nat`, each element < 256; the empty string is
the empty list, matching the `!x` falsiness checks).  SHA-256 is implemented
per FIPS 180-4 over 32-bit words carried as `Nat` with explicit `% 2^32`. -/

def rotr32 (k x : Nat) : Nat := ((x >>> k) ||| (x <<< (32 - k))) % 4294967296

def shaCh (x y z : Nat) : Nat := (x &&& y) ^^^ ((x ^^^ 4294967295) &&& z)

def shaMaj (x y z : Nat) : Nat := (x &&& y) ^^^ (x &&& z) ^^^ (y &&& z)

def bigSigma0 (x : Nat) : Nat := rotr32 2 x ^^^ rotr32 13 x ^^^ rotr32 22 x

def bigSigma1 (x : Nat) : Nat := rotr32 6 x ^^^ rotr32 11 x ^^^ rotr32 25 x

def smallSigma0 (x : Nat) : Nat := rotr32 7 x ^^^ rotr32 18 x ^^^ (x >>> 3)

def smallSigma1 (x : Nat) : Nat := rotr32 17 x ^^^ rotr32 19 x ^^^ (x >>> 10)

/-- The 64 SHA-256 round constants (FIPS 180-4 sec 4.2.2, in decimal). -/
def shaK : List Nat :=
  [1116352408, 1899447441, 3049323471, 3921009573, 961987163, 1508970993,
   2453635748, 2870763221, 3624381080, 310598401, 607225278, 1426881987,
   1925078388, 2162078206, 2614888103, 3248222580, 3835390401, 4022224774,
   264347078, 604807628, 770255983, 1249150122, 1555081692, 1996064986,
   2554220882, 2821834349, 2952996808, 3210313671, 3336571891, 3584528711,
   113926993, 338241895, 666307205, 773529912, 1294757372, 1396182291,
   1695183700, 1986661051, 2177026350, 2456956037, 2730485921, 2820302411,
   3259730800, 3345764771, 3516065817, 3600352804, 4094571909, 275423344,
   430227734, 506948616, 659060556, 883997877, 958139571, 1322822218,
   1537002063, 1747873779, 1955562222, 2024104815, 2227730452, 2361852424,
   2428436474, 2756734187, 3204031479, 3329325298]

structure Sha256State where
  a : Nat
  b : Nat
  c : Nat
  d : Nat
  e : Nat
  f : Nat
  g : Nat
  h : Nat
deriving Repr, DecidableEq

/-- The SHA-256 initial hash value. -/
def shaInit : Sha256State :=
  ⟨1779033703, 3144134277, 1013904242, 2773480762,
   1359893119, 2600822924, 528734635, 1541459225⟩

/-- Big-endian 32-bit words of a byte list (64-byte blocks yield 16 words). -/
def wordsOfBytes : List Nat → List Nat
  | b0 :: b1 :: b2 :: b3 :: rest =>
      (((b0 * 256 + b1) * 256 + b2) * 256 + b3) :: wordsOfBytes rest
  | _ => []

/-- One message-schedule extension step: append
`σ1(w[n-2]) + w[n-7] + σ0(w[n-15]) + w[n-16] mod 2^32`. -/
def extendStep (w : List Nat) : List Nat :=
  let n := w.length
  w ++ [(smallSigma1 (w.getD (n - 2) 0) + w.getD (n - 7) 0
          + smallSigma0 (w.getD (n - 15) 0) + w.getD (n - 16) 0) % 4294967296]

def extendMany : Nat → List Nat → List Nat
  | 0, w => w
  | n + 1, w => extendMany n (extendStep w)

/-- The 64-entry message schedule of one block. -/
def messageSchedule (block : List Nat) : List Nat := extendMany 48 (wordsOfBytes block)

/-- One SHA-256 compression round. -/
def shaRound (st : Sha256State) (kw : Nat × Nat) : Sha256State :=
  let t1 := (st.h + bigSigma1 st.e + shaCh st.e st.f st.g + kw.1 + kw.2) % 4294967296
  let t2 := (bigSigma0 st.a + shaMaj st.a st.b st.c) % 4294967296
  ⟨(t1 + t2) % 4294967296, st.a, st.b, st.c, (st.d + t1) % 4294967296, st.e, st.f, st.g⟩

/-- Compress one 64-byte block into the running state. -/
def compressBlock (st : Sha256State) (block : List Nat) : Sha256State :=
  let f := (shaK.zip (messageSchedule block)).foldl shaRound st
  ⟨(st.a + f.a) % 4294967296, (st.b + f.b) % 4294967296,
   (st.c + f.c) % 4294967296, (st.d + f.d) % 4294967296,
   (st.e + f.e) % 4294967296, (st.f + f.f) % 4294967296,
   (st.g + f.g) % 4294967296, (st.h + f.h) % 4294967296⟩

/-- Big-endian 8-byte encoding of a (< 2^64) length. -/
def be64 (n : Nat) : List Nat :=
  [(n >>> 56) % 256, (n >>> 48) % 256, (n >>> 40) % 256, (n >>> 32) % 256,
   (n >>> 24) % 256, (n >>> 16) % 256, (n >>> 8) % 256, n % 256]

/-- Big-endian 4-byte encoding of a 32-bit word. -/
def be32 (n : Nat) : List Nat :=
  [(n >>> 24) % 256, (n >>> 16) % 256, (n >>> 8) % 256, n % 256]

/-- FIPS 180-4 padding: `0x80`, zeros to 56 mod 64, 64-bit big-endian bit length. -/
def padMessage (msg : List Nat) : List Nat :=
  let L := msg.length
  msg ++ 128 :: List.replicate ((55 + 64 - L % 64) % 64) 0 ++ be64 (8 * L)

def chunksOf64 : Nat → List Nat → List (List Nat)
  | 0, _ => []
  | n + 1, l => l.take 64 :: chunksOf64 n (l.drop 64)

/-- SHA-256 digest (32 bytes) of a byte list. -/
def sha256 (msg : List Nat) : List Nat :=
  let padded := padMessage msg
  let st := (chunksOf64 (padded.length / 64) padded).foldl compressBlock shaInit
  be32 st.a ++ be32 st.b ++ be32 st.c ++ be32 st.d
    ++ be32 st.e ++ be32 st.f ++ be32 st.g ++ be32 st.h

/-- RFC 2104 HMAC with SHA-256 (block size 64): the model of
`crypto.createHmac('sha256', key).update(msg).digest()`. -/
def hmacSha256 (key msg : List Nat) : List Nat :=
  let k0 := if key.length > 64 then sha256 key else key
  let kp := k0 ++ List.replicate (64 - k0.length) 0
  sha256 ((kp.map (fun b => b ^^^ 92)) ++ sha256 ((kp.map (fun b => b ^^^ 54)) ++ msg))

/-- ASCII code of a lowercase hex digit. -/
def hexCode (n : Nat) : Nat := if n < 10 then 48 + n else 87 + n

/-- Lowercase hex rendering of a byte list, as ASCII bytes
(`digest('hex')` followed by `Buffer.from`). -/
def hexOfBytes (l : List Nat) : List Nat :=
  l.flatMap (fun b => [hexCode (b / 16 % 16), hexCode (b % 16)])

/-- `crypto.createHmac('sha256', key).update(msg).digest('hex')` as bytes. -/
def hmacSha256Hex (key msg : List Nat) : List Nat := hexOfBytes (hmacSha256 key msg)

/-- `crypto.timingSafeEqual(a, b)`: `none` models the `RangeError` thrown when
the byte lengths differ; otherwise a constant-time byte comparison. -/
def timingSafeEqual (a b : List Nat) : Option Bool :=
  if a.length = b.length then some (decide (a = b)) else none

/-- `verifyWebhookSignature(payload, signature, secret)` (webhooks.js lines
362-376): false on any empty input; otherwise compare the supplied signature
against the recomputed hex digest with `timingSafeEqual`, converting the
internal error (length mismatch) to false via the surrounding catch. -/
def verifyWebhookSignature (payload signature secret : List Nat) : Bool :=
  if payload = [] ∨ signature = [] ∨ secret = [] then false
  else
    match timingSafeEqual signature (hmacSha256Hex secret payload) with
    | some b => b
    | none => false

/-- `generateWebhookSignature(payload, secret)` (webhooks.js lines 485-489). -/
def generateWebhookSignature (payload secret : List Nat) : List Nat :=
  hmacSha256Hex secret payload

/-! ### Transport — `GraphQLClient` (src/unnamed/part_002 lines 101-140)

The host runtime's `fetch` is the oracle `fetchImpl`: given the `RequestInit`
the code builds, it either rejects (with the thrown value's `message` when it
is an `Error`) or resolves to a response.  `isNextRuntime` models the
`EdgeRuntime`/`NEXT_RUNTIME` environment probe guarding the Next.js caching
options. -/

structure GraphQLPayload where
  query : String
  /-- the `variables` property (`variables` is a reserved command name here) -/
  vars : Option Json := none

structure QueryOptions where
  timeout : Option Int := none
  headers : List (String × String) := []

/-- JS object-spread assignment for string-keyed records: a repeated key is
overwritten in place, a fresh key appended. -/
def setHeader : List (String × String) → String → String → List (String × String)
  | [], k, v => [(k, v)]
  | (k', v') :: rest, k, v =>
    if k' = k then (k, v) :: rest else (k', v') :: setHeader rest k v

/-- `{ 'Content-Type': 'application/json', ...options.headers }`. -/
def mergeHeaders (base extra : List (String × String)) : List (String × String) :=
  extra.foldl (fun acc kv => setHeader acc kv.1 kv.2) base

/-- The argument object passed to `fetch`.  There is no abort signal and no
timer anywhere in it — the only cancellation-capable channels `fetch`
offers. -/
structure RequestInit where
  url : String
  method : String
  headers : List (String × String)
  body : List Char
  nextRevalidate : Option Int
  cache : Option String
deriving Repr, DecidableEq

inductive FetchOutcome where
  | reject (message : Option String)
  | resolve (ok : Bool) (status : Int) (statusText : String) (bodyText : List Char)

/-- `JSON.stringify({query, variables})` builds the POST body; an undefined
`variables` is omitted. -/
def payloadJson (p : GraphQLPayload) : Json :=
  .obj (("query".toList, .str p.query.toList) ::
    (match p.vars with
     | some v => [("variables".toList, v)]
     | none => []))

/-- `GraphQLClient.query` (src/unnamed/part_002 lines 101-140).  Faithful to
the source: `options.timeout` is accepted but never read — no abort signal,
no timer.  A rejected `fetch` or a thrown non-`GraphQLError` is wrapped as
`GraphQLError(message ?? 'Network request failed')`; a non-2xx response
throws `GraphQLError` with status data (rethrown unchanged by the catch);
on a 2xx response the body is JSON-parsed (`response.json()` — its rejection
escapes the catch unwrapped, because the promise is returned without
`await`). -/
def GraphQLClient.query (fetchImpl : RequestInit → FetchOutcome)
    (isNextRuntime : Bool) (url : String) (payload : GraphQLPayload)
    (options : QueryOptions) : Except JsError Json :=
  let init : RequestInit :=
    { url := url
      method := "POST"
      headers := mergeHeaders [("Content-Type", "application/json")] options.headers
      body := stringifyJson (payloadJson payload)
      nextRevalidate := if isNextRuntime then some 300 else none
      cache := if isNextRuntime then some "no-store" else none }
  match fetchImpl init with
  | .reject message =>
      .error (.graphQLError (message.getD "Network request failed") none none none)
  | .resolve ok status statusText bodyText =>
      if !ok then
        .error (.graphQLError ("HTTP " ++ toString status ++ ": " ++ statusText)
          (some status) (some statusText) (some (String.mk bodyText)))
      else
        match parseJsonText bodyText with
        | some j => .ok j
        | none => .error (.syntaxError "Unexpected token in JSON")

/-- The Facade-tier `getBlogPosts` from the compiled package index (the
`index.js` text inside src/service.d.ts, lines 180-187):

```
async function getBlogPosts(count) {
    try { return await service_2.hashnodeService.getBlogPosts(count); }
    catch { return []; }
}
```

`await` of the Service call followed by the blanket catch is the `match` on
the Service result's `Except`.  The source invokes the `hashnodeService`
singleton (`new HashnodeService()`, whose host comes from the process
environment); the constructed instance is abstracted here as the `svc`
parameter. -/
def facadeGetBlogPosts (svc : HashnodeService)
    (transport : Nat → TransportOutcome PublicationPostsResponse)
    (count : Option Int) : List BlogPost :=
  match (svc.getBlogPosts transport count).1 with
  | .ok posts => posts
  | .error _ => []

/-! ### Witness fixtures: a concrete service and concrete failing transports -/

/-- A concrete service instance for witnesses. -/
def svcT : HashnodeService :=
  { apiUrl := HASHNODE_CONFIG.API_URL,
    publicationHost := "testblog.hashnode.dev",
    timeout := HASHNODE_CONFIG.TIMEOUT_MS }

/-- A transport whose every call rejects, with distinguishable errors. -/
def failTransportS : Nat → TransportOutcome PublicationPostResponse :=
  fun n => .throw (.error (if n = 0 then "first failure" else "second failure"))

/-- A transport whose every call rejects, for the list-posts operation. -/
def failTransportP : Nat → TransportOutcome PublicationPostsResponse :=
  fun n => .throw (.error (if n = 0 then "first failure" else "second failure"))

/-- A transport whose first call succeeds with an empty post. -/
def okTransportS : Nat → TransportOutcome PublicationPostResponse :=
  fun _ => .resolve { data? := some { publication := { post := none } } }

/-- The parser's number grammar is maximal-munch, so statements about parsing
a serialized value followed by `rest` need `rest` not to begin with a digit
(every continuation the grammar produces — `,`, `]`, `}`, end of input —
satisfies this). -/
def headNotDigit : List Char → Prop
  | [] => True
  | c :: _ => c.isDigit = false

/-- A structurally valid webhook payload (all `WebhookPayload` fields
present, with an escape-heavy title exercising the string escapes). -/
def samplePayload : Json :=
  .obj [("event".toList, .str "POST_PUBLISHED".toList),
        ("data".toList, .obj
          [("post".toList, .obj
            [("id".toList, .str "p1".toList),
             ("title".toList, .str "He said \"hi\"\n\t\\ done".toList),
             ("slug".toList, .str "hello-world".toList)])]),
        ("publication".toList, .obj
          [("id".toList, .str "pub-1".toList),
           ("title".toList, .str "Blog".toList),
           ("url".toList, .str "https://testblog.hashnode.dev".toList)]),
        ("timestamp".toList, .str "2024-01-01T00:00:00Z".toList)]

/-- A payload whose event lies outside the six literals but whose required
fields are all present and truthy. -/
def archivedPayload : Json :=
  .obj [("event".toList, .str "POST_ARCHIVED".toList),
        ("publication".toList, .obj [("id".toList, .str "pub-1".toList)]),
        ("timestamp".toList, .str "2024-01-01T00:00:00Z".toList)]

/-- A payload whose event value is the empty string — outside the six
literals — with publication and timestamp present and truthy. -/
def blankEventPayload : Json :=
  .obj [("event".toList, .str []),
        ("publication".toList, .obj [("id".toList, .str "pub-1".toList)]),
        ("timestamp".toList, .str "2024-01-01T00:00:00Z".toList)]

/-- A payload whose event is present with the falsy value `0`. -/
def zeroEventPayload : Json :=
  .obj [("event".toList, .num 0),
        ("publication".toList, .obj [("id".toList, .str "pub-1".toList)]),
        ("timestamp".toList, .str "2024-01-01T00:00:00Z".toList)]

/-! ## Claim theorems -/

/-- C1: for every non-empty, non-blank slug, if both the extended-query
attempt and the basic-query fallback attempt of `getBlogPostBySlug` fail,
the error thrown to the direct Service caller is exactly the error raised by
the first (extended) attempt, not the error from the second (basic)
attempt. -/
theorem C1_getBlogPostBySlug_rethrows_first_error
    (svc : HashnodeService)
    (transport : Nat → TransportOutcome PublicationPostResponse)
    (slug : Option String) (hslug : isInvalidSlug slug = false)
    (e1 e2 : JsError)
    (h1 : settleAttempt (transport 0) = .error e1)
    (h2 : settleAttempt (transport 1) = .error e2) :
    (svc.getBlogPostBySlug transport slug).1 = .error e1 := by
  simp [HashnodeService.getBlogPostBySlug, hslug, h1, h2]

/-- C1 witness: both attempts of `failTransportS` fail with distinct errors,
and the service call surfaces the first one. -/
theorem C1_witness :
    isInvalidSlug (some "my-post") = false
    ∧ settleAttempt (failTransportS 0) = .error (.error "first failure")
    ∧ settleAttempt (failTransportS 1) = .error (.error "second failure")
    ∧ (svcT.getBlogPostBySlug failTransportS (some "my-post")).1
        = .error (.error "first failure") :=
  ⟨by decide, rfl, rfl,
   C1_getBlogPostBySlug_rethrows_first_error svcT failTransportS (some "my-post")
     (by decide) _ _ rfl rfl⟩

/-- C2: for every non-empty, non-blank slug, `getBlogPostBySlug` issues the
full-extended query first; exactly when that first attempt fails (transport
rejection, GraphQL-error envelope, or missing data), it issues exactly one
further request with the full-basic query; it never issues more than two
requests, and on first-attempt success no second request is made. -/
theorem C2_getBlogPostBySlug_attempt_policy
    (svc : HashnodeService)
    (transport : Nat → TransportOutcome PublicationPostResponse)
    (slug : Option String) (hslug : isInvalidSlug slug = false) :
    (svc.getBlogPostBySlug transport slug).2 =
      (match settleAttempt (transport 0) with
       | .ok _ =>
         [{ url := svc.apiUrl, query := HashnodeQueries.getBlogPostBySlug true,
            host := svc.publicationHost, slug := jsTrim (slug.getD "") }]
       | .error _ =>
         [{ url := svc.apiUrl, query := HashnodeQueries.getBlogPostBySlug true,
            host := svc.publicationHost, slug := jsTrim (slug.getD "") },
          { url := svc.apiUrl, query := HashnodeQueries.getBlogPostBySlug false,
            host := svc.publicationHost, slug := jsTrim (slug.getD "") }]) := by
  cases h0 : settleAttempt (transport 0) with
  | ok d => simp [HashnodeService.getBlogPostBySlug, hslug, h0]
  | error e =>
    cases h1 : settleAttempt (transport 1) <;>
      simp [HashnodeService.getBlogPostBySlug, hslug, h0, h1]

/-- C2 witness: on a first-attempt success exactly one (extended) request
goes out; the fixture's transport resolves immediately. -/
theorem C2_witness :
    isInvalidSlug (some "my-post") = false
    ∧ (svcT.getBlogPostBySlug okTransportS (some "my-post")).2
        = [{ url := svcT.apiUrl, query := HashnodeQueries.getBlogPostBySlug true,
             host := svcT.publicationHost, slug := "my-post" }] :=
  ⟨by decide,
   C2_getBlogPostBySlug_attempt_policy svcT okTransportS (some "my-post") (by decide)⟩

/-- C3: for every count, when both the extended attempt and the basic
fallback attempt of `getBlogPosts` fail, the call returns the empty list and
never raises (the dead `throw error;` after the inner catch never executes),
and the list-posts Facade wrapper therefore also returns `[]`. -/
theorem C3_getBlogPosts_double_failure_empty
    (svc : HashnodeService)
    (transport : Nat → TransportOutcome PublicationPostsResponse)
    (count : Option Int) (e1 e2 : JsError)
    (h1 : settleAttempt (transport 0) = .error e1)
    (h2 : settleAttempt (transport 1) = .error e2) :
    (svc.getBlogPosts transport count).1 = .ok []
    ∧ facadeGetBlogPosts svc transport count = [] := by
  refine ⟨?_, ?_⟩ <;>
    simp [HashnodeService.getBlogPosts, facadeGetBlogPosts, h1, h2]

/-- C3 witness: with a transport that always rejects, `getBlogPosts` yields
`.ok []` and the facade yields `[]`. -/
theorem C3_witness :
    settleAttempt (failTransportP 0) = .error (.error "first failure")
    ∧ settleAttempt (failTransportP 1) = .error (.error "second failure")
    ∧ (svcT.getBlogPosts failTransportP (some 5)).1 = .ok []
    ∧ facadeGetBlogPosts svcT failTransportP (some 5) = [] :=
  ⟨rfl, rfl,
   (C3_getBlogPosts_double_failure_empty svcT failTransportP (some 5) _ _ rfl rfl).1,
   (C3_getBlogPosts_double_failure_empty svcT failTransportP (some 5) _ _ rfl rfl).2⟩

/-- C4: the claim states that the transport applies a per-call timeout
(`timeoutMs`) after which a call fails with a network-failure error.  The
code accepts `options.timeout` but never reads it: the `RequestInit` it
builds carries no abort signal and no timer, and the whole result of
`GraphQLClient.query` is literally independent of the `timeout` option — so
no timeout is ever applied (code_bug: the client's own documentation claims
"timeout handling" and the service forwards `TIMEOUT_MS`). -/
theorem C4_query_ignores_timeout
    (fetchImpl : RequestInit → FetchOutcome) (isNextRuntime : Bool)
    (url : String) (payload : GraphQLPayload)
    (headers : List (String × String)) (t1 t2 : Option Int) :
    GraphQLClient.query fetchImpl isNextRuntime url payload
        { timeout := t1, headers := headers }
      = GraphQLClient.query fetchImpl isNextRuntime url payload
        { timeout := t2, headers := headers } := rfl

/-- C5: the effective `first` value sent to the remote by `getBlogPosts`
equals `min(requested ?? DEFAULT_POSTS_COUNT, MAX_POSTS_PER_REQUEST)` on
every request it issues; sizes above the ceiling (20) are clamped to it,
sizes at or below pass through unchanged (zero and negative sizes receive no
special handling and pass through like any other below-ceiling value). -/
theorem C5_getBlogPosts_first_clamped
    (svc : HashnodeService)
    (transport : Nat → TransportOutcome PublicationPostsResponse)
    (count : Option Int) :
    ((svc.getBlogPosts transport count).2.map PostsRequest.first
      = List.replicate (svc.getBlogPosts transport count).2.length
          (min (count.getD HASHNODE_CONFIG.DEFAULT_POSTS_COUNT)
               HASHNODE_CONFIG.MAX_POSTS_PER_REQUEST))
    ∧ (∀ c : Int, HASHNODE_CONFIG.MAX_POSTS_PER_REQUEST < c →
        min ((some c).getD HASHNODE_CONFIG.DEFAULT_POSTS_COUNT)
            HASHNODE_CONFIG.MAX_POSTS_PER_REQUEST
          = HASHNODE_CONFIG.MAX_POSTS_PER_REQUEST)
    ∧ (∀ c : Int, c ≤ HASHNODE_CONFIG.MAX_POSTS_PER_REQUEST →
        min ((some c).getD HASHNODE_CONFIG.DEFAULT_POSTS_COUNT)
            HASHNODE_CONFIG.MAX_POSTS_PER_REQUEST
          = c) := by
  refine ⟨?_, ?_, ?_⟩
  · cases h0 : settleAttempt (transport 0) with
    | ok d => simp [HashnodeService.getBlogPosts, h0]
    | error e =>
      cases h1 : settleAttempt (transport 1) <;>
        simp [HashnodeService.getBlogPosts, h0, h1]
  · intro c hc
    simp only [Option.getD_some]
    simp only [HASHNODE_CONFIG.MAX_POSTS_PER_REQUEST] at hc ⊢
    omega
  · intro c hc
    simp only [Option.getD_some]
    simp only [HASHNODE_CONFIG.MAX_POSTS_PER_REQUEST] at hc ⊢
    omega

/-- C5 witness: a request for 50 posts goes out clamped to 20 on both
attempts; a request for -3 passes through unchanged. -/
theorem C5_witness :
    ((svcT.getBlogPosts failTransportP (some 50)).2.map PostsRequest.first
      = List.replicate (svcT.getBlogPosts failTransportP (some 50)).2.length
          (min ((some (50 : Int)).getD HASHNODE_CONFIG.DEFAULT_POSTS_COUNT)
               HASHNODE_CONFIG.MAX_POSTS_PER_REQUEST))
    ∧ min ((some (50 : Int)).getD HASHNODE_CONFIG.DEFAULT_POSTS_COUNT)
          HASHNODE_CONFIG.MAX_POSTS_PER_REQUEST
        = HASHNODE_CONFIG.MAX_POSTS_PER_REQUEST
    ∧ min ((some (-3 : Int)).getD HASHNODE_CONFIG.DEFAULT_POSTS_COUNT)
          HASHNODE_CONFIG.MAX_POSTS_PER_REQUEST
        = (-3 : Int) :=
  ⟨(C5_getBlogPosts_first_clamped svcT failTransportP (some 50)).1,
   (C5_getBlogPosts_first_clamped svcT failTransportP (some 50)).2.1 50 (by decide),
   (C5_getBlogPosts_first_clamped svcT failTransportP (some (-3))).2.2 (-3) (by decide)⟩

/-- C6: for every empty, non-string (`none`), or whitespace-only slug input,
`getBlogPostBySlug` fails immediately with the input-validation error
`'Invalid slug parameter'` and performs zero transport calls. -/
theorem C6_invalid_slug_fails_without_network
    (svc : HashnodeService)
    (transport : Nat → TransportOutcome PublicationPostResponse)
    (slug : Option String)
    (h : slug = none ∨ ∃ s, slug = some s ∧ s.toList.all isJsWhitespace = true) :
    svc.getBlogPostBySlug transport slug
      = (.error (.error "Invalid slug parameter"), []) := by
  have hinv : isInvalidSlug slug = true := by
    rcases h with h | ⟨s, rfl, hws⟩
    · simp [h, isInvalidSlug]
    · simp only [isInvalidSlug, Bool.or_eq_true, beq_iff_eq]
      right
      have hnil : List.dropWhile isJsWhitespace s.data = [] :=
        List.dropWhile_eq_nil_iff.mpr
          (by simpa [List.all_eq_true, String.toList] using hws)
      simp [jsTrim, String.toList, hnil]
  simp [HashnodeService.getBlogPostBySlug, hinv]

/-- The digest is always exactly 32 bytes: it is the concatenation of eight
4-byte words. -/
theorem sha256_length (msg : List Nat) : (sha256 msg).length = 32 := by
  simp [sha256, be32]

theorem hmacSha256_length (key msg : List Nat) : (hmacSha256 key msg).length = 32 := by
  simp [hmacSha256, sha256_length]

theorem hexOfBytes_length (l : List Nat) : (hexOfBytes l).length = 2 * l.length := by
  induction l with
  | nil => rfl
  | cons a l ih =>
    simp only [hexOfBytes, List.flatMap_cons, List.length_append, List.length_cons,
      List.length_nil] at ih ⊢
    omega

/-- The hex digest is always 64 ASCII bytes long. -/
theorem hmacSha256Hex_length (key msg : List Nat) :
    (hmacSha256Hex key msg).length = 64 := by
  simp [hmacSha256Hex, hexOfBytes_length, hmacSha256_length]

theorem hmacSha256Hex_ne_nil (key msg : List Nat) : hmacSha256Hex key msg ≠ [] := by
  intro h
  have hl := hmacSha256Hex_length key msg
  rw [h] at hl
  simp at hl

/-- C7: for every non-empty body and non-empty secret,
`verifyWebhookSignature(body, generateWebhookSignature(body, secret), secret)`
returns true — the HMAC-SHA256 hex round-trip law. -/
theorem C7_verify_generate_roundtrip (body secret : List Nat)
    (hb : body ≠ []) (hs : secret ≠ []) :
    verifyWebhookSignature body (generateWebhookSignature body secret) secret
      = true := by
  have hsig : hmacSha256Hex secret body ≠ [] := hmacSha256Hex_ne_nil secret body
  simp [verifyWebhookSignature, generateWebhookSignature, timingSafeEqual,
    hb, hs, hsig]

/-- C7 witness: the round trip holds at the concrete bytes "hi" / "s". -/
theorem C7_witness :
    ([104, 105] : List Nat) ≠ [] ∧ ([115] : List Nat) ≠ []
    ∧ verifyWebhookSignature [104, 105]
        (generateWebhookSignature [104, 105] [115]) [115] = true :=
  ⟨by decide, by decide,
   C7_verify_generate_roundtrip [104, 105] [115] (by decide) (by decide)⟩

/-- C8: `verifyWebhookSignature` never raises (it is total with a boolean
result) and returns true exactly when no input is empty and the supplied
signature equals the expected hex digest; in particular it returns false
whenever any input is empty, whenever the signature's byte length differs
from the 64-byte digest length (the `timingSafeEqual` `RangeError` caught
into false), and whenever the bytes mismatch. -/
theorem C8_verifyWebhookSignature_characterization (p s k : List Nat) :
    verifyWebhookSignature p s k
      = decide (p ≠ [] ∧ s ≠ [] ∧ k ≠ [] ∧ s = hmacSha256Hex k p) := by
  unfold verifyWebhookSignature timingSafeEqual
  by_cases hor : p = [] ∨ s = [] ∨ k = []
  · rw [if_pos hor]
    rcases hor with h | h | h <;> simp [h]
  · rw [if_neg hor]
    push_neg at hor
    obtain ⟨hp, hs, hk⟩ := hor
    by_cases hlen : s.length = (hmacSha256Hex k p).length
    · rw [if_pos hlen]
      simp [hp, hs, hk]
    · rw [if_neg hlen]
      have hne : s ≠ hmacSha256Hex k p := fun h => hlen (by rw [h])
      simp [hp, hs, hk, hne]

/-! ### Round-trip lemmas for the JSON model -/

theorem hexDigitVal_hexDigitChar (n : Nat) (h : n < 16) :
    hexDigitVal (hexDigitChar n) = some n := by
  interval_cases n <;> rfl

theorem digitChar_isDigit (n : Nat) (h : n < 10) : (digitChar n).isDigit = true := by
  interval_cases n <;> rfl

theorem digitChar_toNat (n : Nat) (h : n < 10) : (digitChar n).toNat = 48 + n := by
  interval_cases n <;> rfl

theorem natToCharsAux_digits (fuel : Nat) :
    ∀ n c, c ∈ natToCharsAux fuel n → c.isDigit = true := by
  induction fuel with
  | zero => intro n c hc; simp [natToCharsAux] at hc
  | succ fuel ih =>
    intro n c hc
    simp only [natToCharsAux] at hc
    split at hc
    · simp only [List.mem_singleton] at hc
      subst hc
      exact digitChar_isDigit n (by omega)
    · rcases List.mem_append.mp hc with h | h
      · exact ih _ _ h
      · simp only [List.mem_singleton] at h
        subst h
        exact digitChar_isDigit _ (Nat.mod_lt _ (by omega))

theorem natToChars_digits (n : Nat) : ∀ c ∈ natToChars n, c.isDigit = true :=
  natToCharsAux_digits (n + 1) n

theorem natToChars_ne_nil (n : Nat) : natToChars n ≠ [] := by
  simp only [natToChars, natToCharsAux]
  split <;> simp

theorem readNat_natToCharsAux (fuel : Nat) :
    ∀ n, n < fuel → readNat (natToCharsAux fuel n) = n := by
  induction fuel with
  | zero => omega
  | succ fuel ih =>
    intro n hn
    simp only [natToCharsAux]
    split
    · next h =>
      simp [readNat, digitChar_toNat n h]
    · next h =>
      push_neg at h
      have h10 : n / 10 < fuel := by
        have := Nat.div_lt_self (by omega : 0 < n) (by omega : 1 < 10)
        omega
      simp only [readNat, List.foldl_append, List.foldl_cons, List.foldl_nil]
      have ihv := ih (n / 10) h10
      simp only [readNat] at ihv
      rw [ihv, digitChar_toNat _ (Nat.mod_lt _ (by omega))]
      omega

theorem readNat_natToChars (n : Nat) : readNat (natToChars n) = n :=
  readNat_natToCharsAux (n + 1) n (by omega)

theorem takeWhile_digits_append (ds rest : List Char)
    (hds : ∀ c ∈ ds, c.isDigit = true) (hrest : headNotDigit rest) :
    (ds ++ rest).takeWhile Char.isDigit = ds
    ∧ (ds ++ rest).dropWhile Char.isDigit = rest := by
  induction ds with
  | nil =>
    cases rest with
    | nil => simp
    | cons c r =>
      simp only [headNotDigit] at hrest
      simp [List.takeWhile_cons, List.dropWhile_cons, hrest]
  | cons d ds ih =>
    have hd : d.isDigit = true := hds d (by simp)
    have ih' := ih (fun c hc => hds c (by simp [hc]))
    simp [List.takeWhile_cons, List.dropWhile_cons, hd, ih'.1, ih'.2]

theorem parseNumber_intToChars (n : Int) (rest : List Char) (h : headNotDigit rest) :
    parseNumber (intToChars n ++ rest) = some (.num n, rest) := by
  by_cases hn : n < 0
  · simp only [intToChars, if_pos hn, List.cons_append]
    have hspan := takeWhile_digits_append (natToChars n.natAbs) rest
      (natToChars_digits n.natAbs) h
    simp only [parseNumber]
    rw [if_pos trivial]
    rw [List.span_eq_take_drop, hspan.1, hspan.2]
    simp only [List.isEmpty_iff]
    rw [if_neg (natToChars_ne_nil n.natAbs)]
    rw [readNat_natToChars]
    have : -(n.natAbs : Int) = n := by omega
    rw [this]
  · push_neg at hn
    simp only [intToChars, if_neg (by omega : ¬ n < 0)]
    obtain ⟨d, ds, hds⟩ : ∃ d ds, natToChars n.natAbs = d :: ds := by
      cases hh : natToChars n.natAbs with
      | nil => exact absurd hh (natToChars_ne_nil _)
      | cons d ds => exact ⟨d, ds, rfl⟩
    have hddig : d.isDigit = true := natToChars_digits n.natAbs d (by simp [hds])
    have hdm : ¬ d = '-' := by
      intro heq
      rw [heq] at hddig
      simp [Char.isDigit] at hddig
    rw [hds, List.cons_append]
    simp only [parseNumber]
    rw [if_neg hdm]
    have hspan := takeWhile_digits_append (natToChars n.natAbs) rest
      (natToChars_digits n.natAbs) h
    rw [hds, List.cons_append] at hspan
    rw [List.span_eq_take_drop, hspan.1, hspan.2]
    simp only [List.isEmpty_iff]
    rw [if_neg (by simp)]
    have : readNat (d :: ds) = n.natAbs := by rw [← hds, readNat_natToChars]
    rw [this]
    have : (n.natAbs : Int) = n := by omega
    rw [this]

theorem parseStringBody_u (a b : Nat) (ha : a < 16) (hb : b < 16) (t : List Char) :
    parseStringBody ('\\' :: 'u' :: '0' :: '0' :: hexDigitChar a :: hexDigitChar b :: t)
      = (parseStringBody t).map (fun p => (Char.ofNat (a * 16 + b) :: p.1, p.2)) := by
  rw [parseStringBody.eq_def]
  simp [hexDigitVal_hexDigitChar a ha, hexDigitVal_hexDigitChar b hb]
  rw [show hexDigitVal '0' = some 0 from rfl]
  simp
  intro h1 _
  exact absurd h1 (by omega)

theorem parseStringBody_roundtrip (s rest : List Char) :
    parseStringBody (s.flatMap escapeChar ++ '"' :: rest) = some (s, rest) := by
  induction s with
  | nil =>
    simp only [List.flatMap_nil, List.nil_append]
    rw [parseStringBody.eq_def]
    simp
  | cons c cs ih =>
    rw [List.flatMap_cons, List.append_assoc]
    by_cases h1 : c = '"'
    · subst h1
      rw [show escapeChar '"' = ['\\', '"'] from rfl, List.cons_append, List.cons_append,
        List.nil_append, parseStringBody.eq_def]
      simp [ih]
    by_cases h2 : c = '\\'
    · subst h2
      rw [show escapeChar '\\' = ['\\', '\\'] from rfl, List.cons_append, List.cons_append,
        List.nil_append, parseStringBody.eq_def]
      simp [ih]
    by_cases h3 : c = '\x08'
    · subst h3
      rw [show escapeChar '\x08' = ['\\', 'b'] from rfl, List.cons_append, List.cons_append,
        List.nil_append, parseStringBody.eq_def]
      simp [ih]
    by_cases h4 : c = '\t'
    · subst h4
      rw [show escapeChar '\t' = ['\\', 't'] from rfl, List.cons_append, List.cons_append,
        List.nil_append, parseStringBody.eq_def]
      simp [ih]
    by_cases h5 : c = '\n'
    · subst h5
      rw [show escapeChar '\n' = ['\\', 'n'] from rfl, List.cons_append, List.cons_append,
        List.nil_append, parseStringBody.eq_def]
      simp [ih]
    by_cases h6 : c = '\x0c'
    · subst h6
      rw [show escapeChar '\x0c' = ['\\', 'f'] from rfl, List.cons_append, List.cons_append,
        List.nil_append, parseStringBody.eq_def]
      simp [ih]
    by_cases h7 : c = '\x0d'
    · subst h7
      rw [show escapeChar '\x0d' = ['\\', 'r'] from rfl, List.cons_append, List.cons_append,
        List.nil_append, parseStringBody.eq_def]
      simp [ih]
    by_cases h8 : c.toNat < 32
    · have hesc : escapeChar c =
          ['\\', 'u', '0', '0', hexDigitChar (c.toNat / 16), hexDigitChar (c.toNat % 16)] := by
        simp [escapeChar, h1, h2, h3, h4, h5, h6, h7, h8]
      rw [hesc]
      simp only [List.cons_append, List.nil_append]
      rw [parseStringBody_u (c.toNat / 16) (c.toNat % 16) (by omega)
        (Nat.mod_lt _ (by omega)) _, ih]
      have hc : c.toNat / 16 * 16 + c.toNat % 16 = c.toNat := by omega
      simp [hc, Char.ofNat_toNat]
    · have hesc : escapeChar c = [c] := by
        simp [escapeChar, h1, h2, h3, h4, h5, h6, h7, h8]
      rw [hesc]
      simp only [List.cons_append, List.nil_append]
      rw [parseStringBody.eq_def]
      simp [h1, h2, h8, ih]


theorem skipWs_cons (c : Char) (l : List Char) (h : isJsonWs c = false) :
    skipWs (c :: l) = c :: l := by
  simp [skipWs, List.dropWhile_cons, h]

theorem digitChar_facts (m : Nat) (h : m < 10) :
    isJsonWs (digitChar m) = false ∧ digitChar m ≠ ']' ∧ digitChar m ≠ rcurly
      ∧ digitChar m ≠ ',' ∧ digitChar m ≠ 'n' ∧ digitChar m ≠ 't' ∧ digitChar m ≠ 'f'
      ∧ digitChar m ≠ '"' ∧ digitChar m ≠ '[' ∧ digitChar m ≠ lcurly := by
  interval_cases m <;> decide

theorem natToCharsAux_head (fuel : Nat) :
    ∀ n, 0 < fuel → ∃ m ds, natToCharsAux fuel n = digitChar m :: ds ∧ m < 10 := by
  induction fuel with
  | zero => intro n h; omega
  | succ fuel ih =>
    intro n _
    simp only [natToCharsAux]
    split
    · next hlt => exact ⟨n, [], rfl, hlt⟩
    · next hge =>
      cases fuel with
      | zero =>
        exact ⟨n % 10, [], by simp [natToCharsAux], Nat.mod_lt _ (by omega)⟩
      | succ fuel' =>
        obtain ⟨m, ds, heq, hm⟩ := ih (n / 10) (by omega)
        exact ⟨m, ds ++ [digitChar (n % 10)], by rw [heq]; simp, hm⟩

theorem natToChars_head (n : Nat) :
    ∃ m ds, natToChars n = digitChar m :: ds ∧ m < 10 :=
  natToCharsAux_head (n + 1) n (by omega)

/-- The first character of any serialized value is never whitespace and never
a closing bracket, brace, or comma. -/
theorem stringifyJson_head (j : Json) :
    ∃ c cs, stringifyJson j = c :: cs ∧ isJsonWs c = false ∧ c ≠ ']' := by
  cases j with
  | null => exact ⟨'n', ['u', 'l', 'l'], by simp [stringifyJson], by decide, by decide⟩
  | bool b =>
    cases b with
    | true => exact ⟨'t', ['r', 'u', 'e'], by simp [stringifyJson], by decide, by decide⟩
    | false =>
      exact ⟨'f', ['a', 'l', 's', 'e'], by simp [stringifyJson], by decide, by decide⟩
  | num n =>
    by_cases hn : n < 0
    · exact ⟨'-', natToChars n.natAbs, by simp [stringifyJson, intToChars, hn],
        by decide, by decide⟩
    · obtain ⟨m, ds, heq, hm⟩ := natToChars_head n.natAbs
      obtain ⟨hws, hbr, -⟩ := digitChar_facts m hm
      exact ⟨digitChar m, ds, by simp [stringifyJson, intToChars, hn, heq], hws, hbr⟩
  | str s =>
    exact ⟨'"', s.flatMap escapeChar ++ ['"'], by simp [stringifyJson, quoteString],
      by decide, by decide⟩
  | arr l =>
    cases l with
    | nil => exact ⟨'[', [']'], by simp [stringifyJson], by decide, by decide⟩
    | cons x xs =>
      exact ⟨'[', stringifyElems x xs ++ [']'], by simp [stringifyJson], by decide, by decide⟩
  | obj l =>
    cases l with
    | nil => exact ⟨lcurly, [rcurly], by simp [stringifyJson], by decide, by decide⟩
    | cons f fs =>
      exact ⟨lcurly, stringifyFields f fs ++ [rcurly], by simp [stringifyJson],
        by decide, by decide⟩

theorem stringifyJson_ne_nil (j : Json) : stringifyJson j ≠ [] := by
  obtain ⟨c, cs, heq, -, -⟩ := stringifyJson_head j
  simp [heq]

theorem stringifyJson_length_pos (j : Json) : 0 < (stringifyJson j).length := by
  obtain ⟨c, cs, heq, -, -⟩ := stringifyJson_head j
  simp [heq]

theorem setField_not_mem (acc : List (List Char × Json)) (k : List Char) (v : Json)
    (h : ∀ kv ∈ acc, kv.1 ≠ k) : setField acc k v = acc ++ [(k, v)] := by
  induction acc with
  | nil => rfl
  | cons f fs ih =>
    obtain ⟨k0, v0⟩ := f
    have hf : k0 ≠ k := h (k0, v0) (by simp)
    simp only [setField, if_neg hf, List.cons_append, List.cons.injEq, true_and]
    exact ih (fun kv hkv => h kv (by simp [hkv]))

theorem keysDistinct_middle (l1 : List (List Char)) (k : List Char) (l2 : List (List Char))
    (h : keysDistinct (l1 ++ k :: l2) = true) : ∀ x ∈ l1, x ≠ k := by
  induction l1 with
  | nil => simp
  | cons a l1 ih =>
    simp only [List.cons_append, keysDistinct, Bool.and_eq_true] at h
    intro x hx
    rcases List.mem_cons.mp hx with rfl | hx'
    · intro heq
      subst heq
      have : (l1 ++ x :: l2).contains x = true := by
        simp [List.elem_iff]
      simp [this] at h
    · exact ih h.2 x hx'

theorem wsF_lbrack : isJsonWs '[' = false := rfl

theorem wsF_quote : isJsonWs '"' = false := rfl

set_option maxHeartbeats 1000000 in
theorem parse_stringify_aux (fuel : Nat) :
    (∀ j rest, Json.wf j = true → (stringifyJson j).length ≤ fuel → headNotDigit rest →
      parseValue fuel (stringifyJson j ++ rest) = some (j, rest))
    ∧ (∀ x xs acc rest, wfElems (x :: xs) = true →
        (stringifyElems x xs).length < fuel →
        parseElems fuel (stringifyElems x xs ++ ']' :: rest) acc
          = some (.arr (acc ++ x :: xs), rest))
    ∧ (∀ k v fs acc rest, wfFields ((k, v) :: fs) = true →
        keysDistinct ((acc ++ (k, v) :: fs).map Prod.fst) = true →
        (stringifyFields (k, v) fs).length < fuel →
        parseFields fuel (stringifyFields (k, v) fs ++ rcurly :: rest) acc
          = some (.obj (acc ++ (k, v) :: fs), rest)) := by
  induction fuel with
  | zero =>
    refine ⟨?_, ?_, ?_⟩
    · intro j rest hwf hlen hrest
      have := stringifyJson_length_pos j
      omega
    · intro x xs acc rest _ hlen
      omega
    · intro k v fs acc rest _ _ hlen
      omega
  | succ fuel ih =>
    obtain ⟨ihV, ihE, ihF⟩ := ih
    refine ⟨?_, ?_, ?_⟩
    · intro j rest hwf hlen hrest
      cases j with
      | null =>
        rw [show stringifyJson .null = ['n', 'u', 'l', 'l'] from by simp [stringifyJson]]
        simp [parseValue, skipWs, isJsonWs]
      | bool b =>
        cases b with
        | true =>
          rw [show stringifyJson (.bool true) = ['t', 'r', 'u', 'e'] from by
            simp [stringifyJson]]
          simp [parseValue, skipWs, isJsonWs]
        | false =>
          rw [show stringifyJson (.bool false) = ['f', 'a', 'l', 's', 'e'] from by
            simp [stringifyJson]]
          simp [parseValue, skipWs, isJsonWs]
      | num n =>
        have hpn := parseNumber_intToChars n rest hrest
        by_cases hn : n < 0
        · rw [show stringifyJson (.num n) = '-' :: natToChars n.natAbs from by
            simp [stringifyJson, intToChars, hn]]
          simp only [intToChars, if_pos hn, List.cons_append] at hpn
          simp [parseValue, skipWs, isJsonWs, lcurly, rcurly, hpn]
        · obtain ⟨m, ds, heq, hm⟩ := natToChars_head n.natAbs
          obtain ⟨hws, hbr, hrc, hcm, hcn, hct, hcf, hcq, hlb, hlc⟩ := digitChar_facts m hm
          rw [show stringifyJson (.num n) = natToChars n.natAbs from by
            simp [stringifyJson, intToChars, hn]]
          simp only [intToChars, if_neg hn, heq, List.cons_append] at hpn ⊢
          simp [parseValue, skipWs, hws, hcn, hct, hcf, hcq, hlb, hlc, hpn]
      | str s =>
        rw [show stringifyJson (.str s) = '"' :: (s.flatMap escapeChar ++ ['"']) from by
          simp [stringifyJson, quoteString]]
        simp only [List.cons_append, List.append_assoc, List.nil_append]
        have hstr := parseStringBody_roundtrip s rest
        simp [parseValue, skipWs, isJsonWs, hstr]
      | arr l =>
        cases l with
        | nil =>
          rw [show stringifyJson (.arr []) = ['[', ']'] from by simp [stringifyJson]]
          simp [parseValue, skipWs, isJsonWs]
        | cons x xs =>
          rw [show stringifyJson (.arr (x :: xs)) = '[' :: (stringifyElems x xs ++ [']'])
            from by simp [stringifyJson]] at hlen ⊢
          have hwfE : wfElems (x :: xs) = true := by simpa [Json.wf] using hwf
          have hlenE : (stringifyElems x xs).length < fuel := by
            simp only [List.length_cons, List.length_append, List.length_singleton] at hlen
            omega
          obtain ⟨c0, cs0, heq0, hws0, hbr0⟩ : ∃ c cs, stringifyElems x xs = c :: cs
              ∧ isJsonWs c = false ∧ c ≠ ']' := by
            obtain ⟨c0, cs0, heq0, hws0, hbr0⟩ := stringifyJson_head x
            cases xs with
            | nil => exact ⟨c0, cs0, by simp [stringifyElems, heq0], hws0, hbr0⟩
            | cons y ys =>
              exact ⟨c0, cs0 ++ ',' :: stringifyElems y ys,
                by simp [stringifyElems, heq0], hws0, hbr0⟩
          have hE := ihE x xs [] rest hwfE hlenE
          rw [heq0] at hE
          simp only [List.cons_append, List.append_assoc, List.nil_append] at hE ⊢
          simp [parseValue, skipWs, List.dropWhile_cons, wsF_lbrack, heq0, hws0, hbr0, hE]
      | obj l =>
        cases l with
        | nil =>
          rw [show stringifyJson (.obj []) = [lcurly, rcurly] from by simp [stringifyJson]]
          simp [parseValue, skipWs, isJsonWs, lcurly, rcurly]
        | cons f fs =>
          obtain ⟨k, v⟩ := f
          rw [show stringifyJson (.obj ((k, v) :: fs))
              = lcurly :: (stringifyFields (k, v) fs ++ [rcurly])
            from by simp [stringifyJson]] at hlen ⊢
          have hwfF : wfFields ((k, v) :: fs) = true := by
            simp only [Json.wf, Bool.and_eq_true] at hwf
            exact hwf.2
          have hkdF : keysDistinct (([] ++ (k, v) :: fs).map Prod.fst) = true := by
            simp only [Json.wf, Bool.and_eq_true] at hwf
            simpa using hwf.1
          have hlenF : (stringifyFields (k, v) fs).length < fuel := by
            simp only [List.length_cons, List.length_append, List.length_singleton] at hlen
            omega
          obtain ⟨cs1, heqF⟩ : ∃ cs, stringifyFields (k, v) fs = '"' :: cs := by
            cases fs with
            | nil =>
              exact ⟨k.flatMap escapeChar ++ ['"'] ++ ':' :: stringifyJson v,
                by simp [stringifyFields, quoteString]⟩
            | cons g gs =>
              exact ⟨k.flatMap escapeChar ++ ['"'] ++ ':' :: stringifyJson v
                  ++ ',' :: stringifyFields g gs,
                by simp [stringifyFields, quoteString]⟩
          have hF := ihF k v fs [] rest hwfF hkdF hlenF
          rw [heqF] at hF
          simp only [List.cons_append, List.append_assoc, List.nil_append,
            lcurly, rcurly] at hF ⊢
          simp [parseValue, skipWs, isJsonWs, List.dropWhile_cons, lcurly, rcurly, heqF, hF]
    · intro x xs acc rest hwf hlen
      cases xs with
      | nil =>
        rw [show stringifyElems x [] = stringifyJson x from by simp [stringifyElems]] at hlen ⊢
        have hwfx : x.wf = true := by simpa [wfElems] using hwf
        have hx := ihV x (']' :: rest) hwfx (by omega) (by simp [headNotDigit])
        simp [parseElems, hx, skipWs, isJsonWs, List.dropWhile_cons]
      | cons y ys =>
        rw [show stringifyElems x (y :: ys) = stringifyJson x ++ ',' :: stringifyElems y ys
          from by simp [stringifyElems]] at hlen ⊢
        have hwf2 : x.wf = true ∧ wfElems (y :: ys) = true := by
          simpa [wfElems] using hwf
        have hlx := stringifyJson_length_pos x
        have hx := ihV x (',' :: (stringifyElems y ys ++ ']' :: rest)) hwf2.1
          (by simp only [List.length_append, List.length_cons] at hlen; omega)
          (by simp [headNotDigit])
        have hE := ihE y ys (acc ++ [x]) rest hwf2.2
          (by simp only [List.length_append, List.length_cons] at hlen; omega)
        simp only [List.cons_append, List.append_assoc] at hx ⊢
        simp [parseElems, hx, skipWs, isJsonWs, List.dropWhile_cons, hE]
    · intro k v fs acc rest hwf hkd hlen
      have hnotmem : ∀ kv ∈ acc, kv.1 ≠ k := by
        have hmap : (acc ++ (k, v) :: fs).map Prod.fst
            = acc.map Prod.fst ++ k :: fs.map Prod.fst := by simp
        have hmid := keysDistinct_middle (acc.map Prod.fst) k (fs.map Prod.fst)
          (by rw [← hmap]; exact hkd)
        intro kv hkv
        exact hmid kv.1 (List.mem_map_of_mem Prod.fst hkv)
      have hwfv : v.wf = true ∧ wfFields fs = true := by
        simpa [wfFields] using hwf
      have hqlen : 0 < (quoteString k).length := by simp [quoteString]
      have hvlen := stringifyJson_length_pos v
      cases fs with
      | nil =>
        rw [show stringifyFields (k, v) [] = quoteString k ++ ':' :: stringifyJson v
          from by simp [stringifyFields]] at hlen ⊢
        rw [show quoteString k = '"' :: (k.flatMap escapeChar ++ ['"']) from rfl] at hlen ⊢
        have hstr := parseStringBody_roundtrip k
          (':' :: (stringifyJson v ++ rcurly :: rest))
        have hv := ihV v (rcurly :: rest) hwfv.1
          (by simp only [List.length_append, List.length_cons] at hlen; omega)
          (by simp [headNotDigit, rcurly])
        have hset := setField_not_mem acc k v hnotmem
        simp only [List.cons_append, List.append_assoc, List.nil_append,
          rcurly] at hstr hv ⊢
        simp [parseFields, skipWs, isJsonWs, List.dropWhile_cons, rcurly, hstr, hv, hset]
      | cons g gs =>
        obtain ⟨k2, v2⟩ := g
        rw [show stringifyFields (k, v) ((k2, v2) :: gs)
            = (quoteString k ++ ':' :: stringifyJson v) ++ ',' :: stringifyFields (k2, v2) gs
          from by simp [stringifyFields]] at hlen ⊢
        rw [show quoteString k = '"' :: (k.flatMap escapeChar ++ ['"']) from rfl] at hlen ⊢
        have hstr := parseStringBody_roundtrip k
          (':' :: (stringifyJson v ++ ',' :: (stringifyFields (k2, v2) gs ++ rcurly :: rest)))
        have hv := ihV v
          (',' :: (stringifyFields (k2, v2) gs ++ rcurly :: rest)) hwfv.1
          (by simp only [List.length_append, List.length_cons] at hlen; omega)
          (by simp [headNotDigit])
        have hF := ihF k2 v2 gs (acc ++ [(k, v)]) rest
          (by simpa [wfFields] using hwfv.2)
          (by simpa using hkd)
          (by simp only [List.length_append, List.length_cons] at hlen; omega)
        have hset := setField_not_mem acc k v hnotmem
        simp only [List.cons_append, List.append_assoc, List.nil_append,
          rcurly] at hstr hv hF ⊢
        simp [parseFields, skipWs, isJsonWs, List.dropWhile_cons, rcurly, hstr, hv, hset, hF]

/-- `JSON.parse` recovers any well-formed value from its `JSON.stringify`
rendering. -/
theorem parseJsonText_stringify (j : Json) (hwf : j.wf = true) :
    parseJsonText (stringifyJson j) = some j := by
  have h := (parse_stringify_aux ((stringifyJson j).length + 1)).1 j [] hwf
    (by omega) (by simp [headNotDigit])
  rw [List.append_nil] at h
  simp [parseJsonText, h, skipWs]

theorem getField_removeField (d : Json) (k : List Char) :
    (removeField d k).getField k = none := by
  cases d with
  | obj fs =>
    simp only [removeField, Json.getField]
    have hfind : List.find? (fun kv => kv.1 == k)
        (fs.filter (fun kv => !(kv.1 == k))) = none := by
      rw [List.find?_eq_none]
      intro x hx
      rw [List.mem_filter] at hx
      simpa using hx.2
    rw [hfind]
    rfl
  | null => rfl
  | bool b => rfl
  | num n => rfl
  | str s => rfl
  | arr l => rfl

/-- Every member of the six-event list is a non-empty string of characters. -/
theorem validEvents_ne_nil (e : List Char) (he : e ∈ validEvents) : e ≠ [] := by
  simp only [validEvents, List.map_cons, List.map_nil, List.mem_cons,
    List.not_mem_nil, or_false] at he
  rcases he with h | h | h | h | h | h <;> subst h <;> decide

/-- C9 counterexample: the payload `{event: "", publication: {...}, timestamp:
"..."}` has an event value (the empty string) outside the six enumerated
literals, with publication and timestamp present and truthy, yet
`parseWebhookPayload` fails with the missing-required-fields error, not with
an invalid-event error carrying the value. -/
theorem C9_counterexample_blank_event :
    parseWebhookPayload (.jsObject blankEventPayload)
        = .error "Missing required webhook fields"
    ∧ "Missing required webhook fields" ≠ "Invalid webhook event: " :=
  ⟨rfl, by decide⟩

/-- C9 (amended): for every well-formed payload whose event is one of the six
literals and whose publication and timestamp are present and truthy,
`parseWebhookPayload(JSON.stringify(p))` returns `p` unchanged; and for every
payload whose event, publication and timestamp are all truthy but whose event
value is outside the six literals, `parseWebhookPayload` fails with the
invalid-event error carrying the offending value. -/
theorem C9_roundtrip_and_invalid_event (j : Json) (hwf : j.wf = true)
    (e : List Char) (hev : j.getField "event".toList = some (.str e))
    (he : e ∈ validEvents)
    (hpub : truthyField j "publication" = true)
    (hts : truthyField j "timestamp" = true) :
    parseWebhookPayload (.jsString (stringifyJson j)) = .ok j
    ∧ ∀ d : Json, truthyField d "event" = true →
        truthyField d "publication" = true →
        truthyField d "timestamp" = true →
        isValidEventVal (d.getField "event".toList) = false →
        parseWebhookPayload (.jsObject d)
          = .error ("Invalid webhook event: "
              ++ String.mk (((d.getField "event".toList).getD .null).jsToString)) := by
  constructor
  · have hev' : j.getField ['e', 'v', 'e', 'n', 't'] = some (.str e) := by
      simpa using hev
    have hevT : truthyField j "event" = true := by
      have hne := validEvents_ne_nil e he
      simp [truthyField, hev', Json.isTruthy, hne]
    have hvalid : isValidEventVal (j.getField "event".toList) = true := by
      rw [hev]
      simp [isValidEventVal, List.elem_iff, he]
    simp only [parseWebhookPayload, parseJsonText_stringify j hwf,
      validateWebhookData, hevT, hpub, hts, hvalid]
    simp
  · intro d hevT hpubT htsT hmatch
    simp only [parseWebhookPayload, validateWebhookData, hevT, hpubT, htsT, hmatch]
    simp

/-- C9 witness: the concrete structurally valid payload round-trips through
stringify/parse, and a concrete payload with event `POST_ARCHIVED` fails with
the invalid-event error carrying that value. -/
theorem C9_witness :
    parseWebhookPayload (.jsString (stringifyJson samplePayload)) = .ok samplePayload
    ∧ parseWebhookPayload (.jsObject archivedPayload)
        = .error ("Invalid webhook event: "
            ++ String.mk (((archivedPayload.getField "event".toList).getD .null).jsToString)) :=
  ⟨(C9_roundtrip_and_invalid_event samplePayload
      (by simp [samplePayload, Json.wf, wfElems, wfFields, keysDistinct])
      "POST_PUBLISHED".toList rfl (by decide) rfl rfl).1,
   (C9_roundtrip_and_invalid_event samplePayload
      (by simp [samplePayload, Json.wf, wfElems, wfFields, keysDistinct])
      "POST_PUBLISHED".toList rfl (by decide) rfl rfl).2
     archivedPayload rfl rfl rfl (by decide)⟩

/-- C10: a payload in which `event`, `publication`, or `timestamp` is present
with a falsy value (empty string, 0, false, or null — exactly the values with
`isTruthy = false`) produces the missing-required-fields error, exactly as
the same payload with that field deleted does: presence with a falsy value is
indistinguishable from absence. -/
theorem C10_falsy_required_field_as_absent (d : Json) (k : String)
    (hk : k = "event" ∨ k = "publication" ∨ k = "timestamp")
    (v : Json) (hget : d.getField k.toList = some v) (hfalsy : v.isTruthy = false) :
    parseWebhookPayload (.jsObject d) = .error "Missing required webhook fields"
    ∧ parseWebhookPayload (.jsObject (removeField d k.toList))
        = .error "Missing required webhook fields" := by
  constructor
  · have htf : truthyField d k = false := by
      simp only [truthyField, hget]
      exact hfalsy
    rcases hk with rfl | rfl | rfl <;>
      · simp only [parseWebhookPayload, validateWebhookData, htf]
        simp
  · have htf2 : truthyField (removeField d k.toList) k = false := by
      simp only [truthyField, getField_removeField]
    rcases hk with rfl | rfl | rfl <;>
      · simp only [parseWebhookPayload, validateWebhookData, htf2]
        simp

/-- C10 witness: an event present with value `0` produces the same
missing-fields error as no event at all. -/
theorem C10_witness :
    parseWebhookPayload (.jsObject zeroEventPayload)
        = .error "Missing required webhook fields"
    ∧ parseWebhookPayload (.jsObject (removeField zeroEventPayload "event".toList))
        = .error "Missing required webhook fields" :=
  C10_falsy_required_field_as_absent zeroEventPayload "event" (Or.inl rfl)
    (.num 0) rfl rfl


/-- C6 witness: a whitespace-only slug is rejected with zero requests. -/
theorem C6_witness :
    ((some "  \t ") = (none : Option String)
      ∨ ∃ s, (some "  \t ") = some s ∧ s.toList.all isJsWhitespace = true)
    ∧ svcT.getBlogPostBySlug failTransportS (some "  \t ")
        = (.error (.error "Invalid slug parameter"), []) :=
  ⟨Or.inr ⟨"  \t ", rfl, by decide⟩,
   C6_invalid_slug_fails_without_network svcT failTransportS (some "  \t ")
     (Or.inr ⟨"  \t ", rfl, by decide⟩)⟩

end Hashnode
